import Mathlib

/-!
Verification of the laser-parameter prediction core of the `lasertuner`
backend: a shallow embedding of `backend/ml_prediction.py`,
`backend/data_quality_service.py` and `backend/ml_feature_engineering.py`,
together with proofs settling the specification claims about these modules.

Modelling conventions:
* Python floats are embedded as exact rationals (`ℚ`); the two places where
  the source computes a fractional power (`power_ratio ** 0.5`,
  `power_ratio ** 0.4`) are embedded over `ℝ` with `Real.rpow`.
* Python's `round` (banker's rounding, round-half-to-even) is embedded as
  `pyRound`; `round(x, n)` as `roundTo n x`.
* Python dict payloads are embedded as structures whose optional keys are
  `Option` fields; `d.get(k, default)` becomes `Option.getD`.
* Python string `lower`/`strip`/`in` are embedded over the character list of
  the string (ASCII case mapping, which covers the material table's keys).
-/

/-- Banker's rounding (round-half-to-even), the semantics of Python `round`. -/
def pyRound {α : Type} [LinearOrderedField α] [FloorRing α] (x : α) : ℤ :=
  let n : ℤ := ⌊x⌋
  let f : α := x - n
  if f < 1/2 then n
  else if 1/2 < f then n + 1
  else if Even n then n else n + 1

/-- Python `round(x, nd)`: banker's rounding to `nd` decimal digits. -/
def roundTo {α : Type} [LinearOrderedField α] [FloorRing α] (nd : ℕ) (x : α) : α :=
  ((pyRound (x * 10 ^ nd) : ℤ) : α) / 10 ^ nd

/-- `statistics.mean` on rationals (the empty-list case, which raises in
Python, is given the junk value `0/0 = 0`; no caller reaches it). -/
def qmean (l : List ℚ) : ℚ := l.sum / l.length

/-- `statistics.median`: sort, take middle element (odd length) or the mean of
the two middle elements (even length). -/
def qmedian (l : List ℚ) : ℚ :=
  let s := List.insertionSort (· ≤ ·) l
  let n := s.length
  if n % 2 = 1 then s.getD (n / 2) 0
  else (s.getD (n / 2 - 1) 0 + s.getD (n / 2) 0) / 2

/-- Python `max` over a nonempty list (`0` junk value on `[]`). -/
def qmaxL : List ℚ → ℚ
  | [] => 0
  | h :: t => t.foldl max h

/-- Python `min` over a nonempty list (`0` junk value on `[]`). -/
def qminL : List ℚ → ℚ
  | [] => 0
  | h :: t => t.foldl min h

/-- Python `str.lower` (ASCII case mapping). -/
def pyLower (s : String) : String := ⟨s.data.map Char.toLower⟩

/-- Python `str.strip`: drop leading and trailing whitespace. -/
def pyStrip (s : String) : String :=
  ⟨((s.data.dropWhile Char.isWhitespace).reverse.dropWhile Char.isWhitespace).reverse⟩

/-- Python `a in b` on strings: substring containment. -/
def pyIn (a b : String) : Bool := decide (a.data <:+: b.data)

/-- Python float formatting with `:.0f` (round to integer, banker's). -/
def fmtF0 (q : ℚ) : String := toString (pyRound q)

/-- Python float formatting with `:.1f` (one decimal digit, banker's). -/
def fmtF1 (q : ℚ) : String :=
  let r := pyRound (q * 10)
  let sign := if r < 0 then "-" else ""
  sign ++ toString (r.natAbs / 10) ++ "." ++ toString (r.natAbs % 10)

namespace MLPred

/-- One per-process parameter set, `exp['processes'][process_type]`
(`power`, `speed`, `passes` are accessed by direct indexing in this module). -/
structure PParams where
  power : ℚ
  speed : ℚ
  passes : ℚ
deriving DecidableEq

/-- An experiment record as consumed by `MLPredictionService`. Keys read with
`.get(k, default)` whose default coincides with the zero value are plain
fields; `machineBrand` and `dataSource` keep `Option` since their defaults
differ between call sites or are `None`. -/
structure Exp where
  processes : List (String × PParams)
  qualityScores : List (String × ℚ)
  approveCount : ℚ
  dataSource : Option String
  laserPower : ℚ
  machineBrand : Option String
deriving DecidableEq

/-- `exp.get('dataSource') in ['researcher', 'researcher_import']`. -/
def isGold (e : Exp) : Bool :=
  decide (e.dataSource = some "researcher" ∨ e.dataSource = some "researcher_import")

/-- The filter loop of `predict_from_data`: keep experiments whose `processes`
contain `process_type` and whose quality score for it (default 0) is at least
`quality_threshold = 5`. -/
def relevantFilter (exps : List Exp) (pt : String) : List Exp :=
  exps.filter (fun e =>
    (e.processes.lookup pt).isSome && decide ((e.qualityScores.lookup pt).getD 0 ≥ 5))

/-- `exp['processes'][process_type]`. The source raises `KeyError` when the
process is absent; all callers only pass records containing `pt`, so the
default of this model is never reached on the source's execution paths. -/
def procOf (e : Exp) (pt : String) : PParams :=
  (e.processes.lookup pt).getD ⟨0, 0, 0⟩

/-- The per-experiment weight of `_calculate_average_params`:
`quality + approve_count * 0.5`, times `1.5` for gold-standard provenance.
The quality default used here is 5 (unlike the filter, which uses 0). -/
def expWeight (e : Exp) (pt : String) : ℚ :=
  let quality := (e.qualityScores.lookup pt).getD 5
  let weight := quality + e.approveCount * (1/2)
  if isGold e then weight * (3/2) else weight

/-- Result of `_calculate_average_params` (power rounded to 1 decimal, speed
to 0 decimals, passes an integer). -/
structure BaseOut where
  power : ℚ
  speed : ℚ
  passes : ℤ
deriving DecidableEq

/-- `MLPredictionService._calculate_average_params`. -/
def calculateAverageParams (exps : List Exp) (pt : String) : BaseOut :=
  let powers := exps.map (fun e => (procOf e pt).power)
  let speeds := exps.map (fun e => (procOf e pt).speed)
  let passesList := exps.map (fun e => (procOf e pt).passes)
  let weights := exps.map (fun e => expWeight e pt)
  let totalWeight := weights.sum
  let avgPower := (List.zipWith (· * ·) powers weights).sum / totalWeight
  let avgSpeed := (List.zipWith (· * ·) speeds weights).sum / totalWeight
  let avgPasses := pyRound ((List.zipWith (· * ·) passesList weights).sum / totalWeight)
  let medianPower := qmedian powers
  let medianSpeed := qmedian speeds
  let finalPower := avgPower * (7/10) + medianPower * (3/10)
  let finalSpeed := avgSpeed * (7/10) + medianSpeed * (3/10)
  { power := roundTo 1 (max 10 (min 100 finalPower))
    speed := roundTo 0 (max 50 (min 1000 finalSpeed))
    passes := max 1 (min 10 avgPasses) }

/-- The prediction dict returned by `predict_from_data` (over `ℝ`, since the
power-scaled path computes fractional powers of the ratio). -/
structure ScaledOut where
  power : ℝ
  speed : ℝ
  passes : ℤ

/-- Inclusion of an unscaled base prediction into the result type. -/
noncomputable def castBase (b : BaseOut) : ScaledOut :=
  ⟨(b.power : ℝ), (b.speed : ℝ), b.passes⟩

/-- `MLPredictionService._scale_by_power`. -/
noncomputable def scaleByPower (params : BaseOut) (sourcePower targetPower : ℚ) : ScaledOut :=
  if sourcePower ≤ 0 ∨ targetPower ≤ 0 then castBase params
  else
    let ratio : ℚ := targetPower / sourcePower
    let scaledPower : ℝ := (params.power : ℝ) / (ratio : ℝ) ^ (0.5 : ℝ)
    let scaledSpeed : ℝ := (params.speed : ℝ) * (ratio : ℝ) ^ (0.4 : ℝ)
    let scaledPasses : ℤ := if ratio < 1/2 then params.passes + 1 else params.passes
    { power := roundTo 1 (max 10 (min 100 scaledPower))
      speed := roundTo 0 (max 50 (min 1000 scaledSpeed))
      passes := max 1 (min 10 scaledPasses) }

/-- `MLPredictionService._calculate_variance` (normalized variance in [0,1]). -/
def calculateVariance (values : List ℚ) : ℚ :=
  if values.length < 2 then 0
  else
    let avg := qmean values
    if avg = 0 then 1
    else
      let variance := (values.map (fun x => (x - avg) ^ 2)).sum / (values.length : ℚ)
      min 1 (variance / avg ^ 2)

/-- Truthiness of the optional `target_power` argument (`if target_power:`). -/
def optTruthy : Option ℚ → Bool
  | none => false
  | some v => decide (v ≠ 0)

/-- `MLPredictionService._calculate_confidence`. -/
def calculateConfidence (dataPoints : ℕ) (exps : List Exp) (pt : String)
    (wasScaled : Bool) (powerDiff : ℚ) : ℚ :=
  let baseConfidence : ℚ :=
    if dataPoints ≥ 50 then 0.90
    else if dataPoints ≥ 20 then 0.85
    else if dataPoints ≥ 10 then 0.75
    else if dataPoints ≥ 5 then 0.68
    else 0.60
  let qualities := exps.map (fun e => (e.qualityScores.lookup pt).getD 5)
  let avgQuality := qmean qualities
  let qualityFactor := avgQuality / 10
  let powers := exps.map (fun e => (procOf e pt).power)
  let speeds := exps.map (fun e => (procOf e pt).speed)
  let consistencyFactor :=
    1 - min (0.2 : ℚ) ((calculateVariance powers + calculateVariance speeds) / 2)
  let laserPowers := exps.map (·.laserPower)
  let powerRange := qmaxL laserPowers - qminL laserPowers
  let powerDiversityFactor : ℚ :=
    if powerRange < 20 then 1 else if powerRange < 50 then 0.90 else 0.75
  let uniqueBrands := ((exps.map (fun e => pyLower (e.machineBrand.getD ""))).dedup).length
  let brandFactor : ℚ :=
    if uniqueBrands = 1 then 1 else if uniqueBrands ≤ 3 then 0.90 else 0.80
  let scalingFactor : ℚ :=
    if wasScaled then
      (if powerDiff < 30 then 0.90 else if powerDiff < 60 then 0.80 else 0.70)
    else 1
  let goldCount := (exps.filter (fun e => isGold e)).length
  let goldRatio : ℚ := (goldCount : ℚ) / (exps.length : ℚ)
  let goldBonus := 1 + goldRatio * 0.1
  let confidence := baseConfidence * qualityFactor * consistencyFactor *
    powerDiversityFactor * brandFactor * scalingFactor * goldBonus
  roundTo 2 (min 0.95 (max 0.55 confidence))

/-- `MLPredictionService._generate_notes`. -/
def generateNotes (dataPoints : ℕ) (confidence : ℚ) (exps : List Exp) (pt : String)
    (wasScaled : Bool) (avgSourcePower : ℚ) (targetPower : Option ℚ) : String :=
  let qualities := exps.map (fun e => (e.qualityScores.lookup pt).getD 5)
  let avgQuality := qmean qualities
  let goldCount := (exps.filter (fun e => isGold e)).length
  let brandsCard := ((exps.map (fun e => e.machineBrand.getD "Unknown")).dedup).length
  let part1 : String :=
    if confidence ≥ 0.80 then "✅ Yüksek güvenilirlik"
    else if confidence ≥ 0.65 then "ℹ️ Orta güvenilirlik"
    else "⚠️ Düşük güvenilirlik"
  let parts1 := [part1, toString dataPoints ++ " benzer deney verisine dayanıyor"]
  let parts2 :=
    if wasScaled && optTruthy targetPower && decide (avgSourcePower ≠ 0) then
      parts1 ++ ["🔧 " ++ fmtF0 avgSourcePower ++ "W → " ++
        fmtF0 (targetPower.getD 0) ++ "W güç ölçeklendi"]
    else parts1
  let parts3 := parts2 ++ ["Ortalama kalite: " ++ fmtF1 avgQuality ++ "/10"]
  let parts4 :=
    if goldCount > 0 then parts3 ++ ["🌟 " ++ toString goldCount ++ " gold standard veri"]
    else parts3
  let parts5 :=
    if brandsCard > 3 then parts4 ++ ["⚙️ " ++ toString brandsCard ++ " farklı makina"]
    else parts4
  String.intercalate " | " parts5

/-- `MLPredictionService.predict_from_data`. The material and thickness
arguments are accepted but (as in the source) not used by the computation. -/
noncomputable def predictFromData (exps : List Exp) (pt : String)
    (_materialType : String) (_thickness : ℚ) (targetPower : Option ℚ) :
    Option ScaledOut × ℚ × String :=
  let relevant := relevantFilter exps pt
  let dataPoints := relevant.length
  if dataPoints < 3 then
    (none, 0, "Yetersiz veri (" ++ toString dataPoints ++ " deney)")
  else
    let basePredictions := calculateAverageParams relevant pt
    let avgSourcePower := qmean (relevant.map (·.laserPower))
    let powerDiff :=
      if optTruthy targetPower then |avgSourcePower - targetPower.getD 0| else 0
    let wasScaled := optTruthy targetPower && decide (powerDiff > 20)
    let preds :=
      if wasScaled then scaleByPower basePredictions avgSourcePower (targetPower.getD 0)
      else castBase basePredictions
    let confidence := calculateConfidence dataPoints relevant pt wasScaled powerDiff
    let notes := generateNotes dataPoints confidence relevant pt wasScaled
      avgSourcePower targetPower
    (some preds, confidence, notes)

/-- Modelled from the spec (for claim C2): the weighted median of a pool of
`(passes, weight)` candidates — sort by pass count, accumulate normalized
weight, pick the first value at which the cumulative weight reaches 0.5. -/
def specWMAux (total : ℚ) : List (ℚ × ℚ) → ℚ → ℚ
  | [], _ => 0
  | (p, w) :: rest, acc =>
    if acc + w / total ≥ 1/2 then p else specWMAux total rest (acc + w / total)

/-- Modelled from the spec (for claim C2): weighted-median passes aggregation. -/
def specWeightedMedianPasses (pool : List (ℚ × ℚ)) : ℚ :=
  specWMAux ((pool.map (·.2)).sum)
    (List.insertionSort (fun a b => a.1 ≤ b.1) pool) 0

/-- Modelled from the spec (for claim C3): the claimed pass-count adjustment —
+1 if ratio < 0.7, −1 (floored at 1) if ratio > 1.3, unchanged otherwise. -/
def specPassAdjust (ratio : ℚ) (passes : ℤ) : ℤ :=
  if ratio < 0.7 then passes + 1
  else if ratio > 1.3 then max 1 (passes - 1)
  else passes

/-- The `avg_source_power` computed by `predict_from_data`: the mean source
laser power of the filtered pool. -/
def avgSourceOf (exps : List Exp) (pt : String) : ℚ :=
  qmean ((relevantFilter exps pt).map (·.laserPower))

/-- The `base_predictions` computed by `predict_from_data`. -/
def baseOf (exps : List Exp) (pt : String) : BaseOut :=
  calculateAverageParams (relevantFilter exps pt) pt

end MLPred

namespace DataQuality

/-- One per-process parameter set as read by `DataQualityService`
(all keys accessed with `.get(k, 0)` or guarded by membership tests). -/
structure QParams where
  power : Option ℚ
  speed : Option ℚ
  passes : Option ℚ
deriving DecidableEq

/-- An experiment record as consumed by `DataQualityService` (every field is
optional; the service reads them with `.get`/`in` guards). -/
structure Experiment where
  materialType : Option String
  materialThickness : Option ℚ
  laserPower : Option ℚ
  processes : Option (List (String × QParams))
deriving DecidableEq

/-- The feature rows contributed by one record to the outlier-detection
matrix: one `[thickness, laserPower, power, speed, passes]` row per process. -/
def rowsOfRec (e : Experiment) : List (List ℚ) :=
  (e.processes.getD []).map (fun pp =>
    [e.materialThickness.getD 0, e.laserPower.getD 0,
     pp.2.power.getD 0, pp.2.speed.getD 0, pp.2.passes.getD 0])

/-- The full feature matrix of `detect_outliers` (rows in record order). -/
def buildRows (exps : List Experiment) : List (List ℚ) := exps.flatMap rowsOfRec

/-- Column `j` of the feature matrix. -/
def colAt (rows : List (List ℚ)) (j : ℕ) : List ℚ := rows.map (fun r => r.getD j 0)

/-- `np.var`-style population variance of a column (`np.std` is its square
root). -/
def colVar (l : List ℚ) : ℚ :=
  (l.map (fun x => (x - qmean l) ^ 2)).sum / (l.length : ℚ)

/-- One dimension of the Z-score test over `ℚ`. The source computes
`|x - mean| / std > threshold` in floating point, where `std = sqrt(var)` and
a zero `std` is replaced by `1.0`. Over the rationals this is embedded by the
equivalent decidable condition (squaring both sides when the threshold is
nonnegative); the lemma `zFlagQ_iff_real` below proves this Boolean equal to
the direct real-number transcription. -/
def zFlagQ (m v t x : ℚ) : Bool :=
  if v = 0 then decide (|x - m| > t)
  else decide (t < 0 ∨ (x - m) ^ 2 > t ^ 2 * v)

/-- Flag of one row under `_detect_outliers_zscore`: some dimension's
Z-score exceeds the threshold. -/
def rowFlagZscore (rows : List (List ℚ)) (t : ℚ) (r : List ℚ) : Bool :=
  (List.range (rows.headD []).length).any (fun j =>
    zFlagQ (qmean (colAt rows j)) (colVar (colAt rows j)) t (r.getD j 0))

/-- `DataQualityService._detect_outliers_zscore` (the per-row outlier mask). -/
def zscoreMask (rows : List (List ℚ)) (t : ℚ) : List Bool :=
  rows.map (rowFlagZscore rows t)

/-- `np.percentile` with the default linear interpolation. -/
def percentile (l : List ℚ) (q : ℚ) : ℚ :=
  let s := List.insertionSort (· ≤ ·) l
  let n := s.length
  let pos := ((n : ℚ) - 1) * q / 100
  let i := (⌊pos⌋).toNat
  let lower := s.getD i 0
  let upper := s.getD (i + 1) lower
  lower + (pos - ⌊pos⌋) * (upper - lower)

/-- Flag of one row under `_detect_outliers_iqr`: some dimension falls outside
`[Q1 - k*IQR, Q3 + k*IQR]`. -/
def rowFlagIqr (rows : List (List ℚ)) (k : ℚ) (r : List ℚ) : Bool :=
  (List.range (rows.headD []).length).any (fun j =>
    let col := colAt rows j
    let q1 := percentile col 25
    let q3 := percentile col 75
    let iqr := q3 - q1
    decide (r.getD j 0 < q1 - k * iqr ∨ q3 + k * iqr < r.getD j 0))

/-- `DataQualityService._detect_outliers_iqr` (the per-row outlier mask). -/
def iqrMask (rows : List (List ℚ)) (k : ℚ) : List Bool :=
  rows.map (rowFlagIqr rows k)

/-- Per-row flag of the method dispatch in `detect_outliers` (an unknown
method falls back to IQR with a warning). -/
def rowFlagOf (rows : List (List ℚ)) (method : String) (t : ℚ) : List ℚ → Bool :=
  if method = "iqr" then rowFlagIqr rows t
  else if method = "zscore" then rowFlagZscore rows t
  else rowFlagIqr rows t

/-- The outlier mask chosen by `detect_outliers` for the given method. -/
def maskOf (rows : List (List ℚ)) (method : String) (t : ℚ) : List Bool :=
  rows.map (rowFlagOf rows method t)

/-- The index-tracking loop of `detect_outliers` that maps the row mask back
to per-record flags: a record with `n` processes consumes the next `n` mask
entries and is flagged when any of them is set; a record with zero processes
is flagged `False` and consumes nothing. -/
def flagsAux : List Experiment → List Bool → List Bool
  | [], _ => []
  | e :: rest, mask =>
    let n := (e.processes.getD []).length
    if n = 0 then false :: flagsAux rest mask
    else ((mask.take n).any id) :: flagsAux rest (mask.drop n)

/-- `DataQualityService.detect_outliers`, returning `(clean, outliers)`. -/
def detectOutliers (exps : List Experiment) (method : String) (threshold : ℚ) :
    List Experiment × List Experiment :=
  if exps.isEmpty then ([], [])
  else
    let rows := buildRows exps
    if rows.isEmpty then (exps, [])
    else
      let mask := maskOf rows method threshold
      let flags := flagsAux exps mask
      (((exps.zip flags).filter (fun p => !p.2)).map (·.1),
       ((exps.zip flags).filter (fun p => p.2)).map (·.1))

/-- The per-record outlier predicate detect_outliers effectively applies: some
feature row of the record is flagged by the chosen mask (statistics are those
of the whole pool's matrix). -/
def recordFlag (exps : List Experiment) (method : String) (t : ℚ) (e : Experiment) : Bool :=
  (rowsOfRec e).any (rowFlagOf (buildRows exps) method t)

/-- The validation errors of `validate_experiment`, as structured values (the
source formats them as f-strings; the constructor arguments carry exactly the
interpolated data). -/
inductive VError where
  | missing (field : String)
  | laserPowerRange (p : ℚ)
  | thicknessRange (t : ℚ)
  | processPowerRange (pt : String) (v : ℚ)
  | processSpeedRange (pt : String) (v : ℚ)
  | processPassesRange (pt : String) (v : ℚ)
deriving DecidableEq

/-- Python truthiness of an optional string field (`''` is falsy). -/
def truthyStr : Option String → Bool
  | none => false
  | some s => decide (s ≠ "")

/-- Python truthiness of an optional numeric field (`0` is falsy). -/
def truthyNum : Option ℚ → Bool
  | none => false
  | some q => decide (q ≠ 0)

/-- Python truthiness of the optional `processes` mapping (`{}` is falsy). -/
def truthyProcs : Option (List (String × QParams)) → Bool
  | none => false
  | some l => !l.isEmpty

/-- `DataQualityService.validate_experiment` (the required-fields loop is
unrolled over its four field names, in source order). -/
def validateExperiment (e : Experiment) : Bool × List VError :=
  let missingErrs :=
    (if truthyStr e.materialType then [] else [VError.missing "materialType"]) ++
    (if truthyNum e.materialThickness then [] else [VError.missing "materialThickness"]) ++
    (if truthyNum e.laserPower then [] else [VError.missing "laserPower"]) ++
    (if truthyProcs e.processes then [] else [VError.missing "processes"])
  let lpErrs := match e.laserPower with
    | none => []
    | some p => if 2 ≤ p ∧ p ≤ 40 then [] else [VError.laserPowerRange p]
  let thErrs := match e.materialThickness with
    | none => []
    | some t => if 0.1 ≤ t ∧ t ≤ 10 then [] else [VError.thicknessRange t]
  let procErrs := match e.processes with
    | none => []
    | some l => l.flatMap (fun pp =>
        (match pp.2.power with
          | none => []
          | some v => if 5 ≤ v ∧ v ≤ 100 then [] else [VError.processPowerRange pp.1 v]) ++
        (match pp.2.speed with
          | none => []
          | some v => if 50 ≤ v ∧ v ≤ 500 then [] else [VError.processSpeedRange pp.1 v]) ++
        (match pp.2.passes with
          | none => []
          | some v => if 1 ≤ v ∧ v ≤ 20 then [] else [VError.processPassesRange pp.1 v]))
  let errors := missingErrs ++ lpErrs ++ thErrs ++ procErrs
  (errors.isEmpty, errors)

/-- A required field that is present in the record but carries a Python-falsy
value (`0`, `''`, `{}`), per field name. -/
def presentFalsy (e : Experiment) (field : String) : Bool :=
  if field = "materialType" then e.materialType.isSome && !truthyStr e.materialType
  else if field = "materialThickness" then
    e.materialThickness.isSome && !truthyNum e.materialThickness
  else if field = "laserPower" then e.laserPower.isSome && !truthyNum e.laserPower
  else if field = "processes" then e.processes.isSome && !truthyProcs e.processes
  else false

/-- `DataQualityService.augment_data`. The randomized
`_create_synthetic_experiment` is passed in as the generator `gen` (the spec
itself requires the randomness to be injectable); a generator returning `none`
models a perturbation attempt that threw and was dropped. -/
def augmentData (gen : Experiment → ℕ → Option Experiment)
    (exps : List Experiment) (factor : ℤ) : List Experiment :=
  exps ++ exps.flatMap (fun e => (List.range (factor - 1).toNat).filterMap (gen e))

/-- Modelled from the spec (for claim C8): the claimed per-row Z-score flag in
which each dimension's standard deviation is floored at 1.0 (`max std 1`)
before being used as a divisor. -/
def specFlooredZFlag (rows : List (List ℚ)) (t : ℚ) (r : List ℚ) : Prop :=
  ∃ j ∈ List.range (rows.headD []).length,
    |(r.getD j 0 : ℝ) - (qmean (colAt rows j) : ℝ)| /
      max (Real.sqrt ((colVar (colAt rows j) : ℚ) : ℝ)) 1 > (t : ℝ)

/-- The divisor the source actually uses for dimension `j`: the standard
deviation `sqrt var`, replaced by `1.0` exactly when it is zero. -/
noncomputable def adjStd (v : ℚ) : ℝ :=
  if Real.sqrt (v : ℝ) = 0 then 1 else Real.sqrt (v : ℝ)

/-- The direct real-number transcription of the source's per-row Z-score flag:
some dimension has `|x - mean| / std > threshold` with the zero-`std`
replacement applied. -/
def specAdjZFlag (rows : List (List ℚ)) (t : ℚ) (r : List ℚ) : Prop :=
  ∃ j ∈ List.range (rows.headD []).length,
    |(r.getD j 0 : ℝ) - (qmean (colAt rows j) : ℝ)| /
      adjStd (colVar (colAt rows j)) > (t : ℝ)

end DataQuality

namespace FeatureEng

/-- A material's normalized physical properties. -/
structure MatProps where
  density : ℚ
  thermal : ℚ
  melt : ℚ
  absorb : ℚ
deriving DecidableEq

/-- `MaterialFeatureEncoder.MATERIAL_PROPERTIES`, in source (insertion)
order; Python dict lookups and `keys()` iteration respect this order. -/
def MATERIAL_PROPERTIES : List (String × MatProps) :=
  [("ahşap", ⟨0.60, 0.15, 0.0, 0.85⟩),
   ("ahsap", ⟨0.60, 0.15, 0.0, 0.85⟩),
   ("wood", ⟨0.60, 0.15, 0.0, 0.85⟩),
   ("kontrplak", ⟨0.65, 0.14, 0.0, 0.83⟩),
   ("plywood", ⟨0.65, 0.14, 0.0, 0.83⟩),
   ("mdf", ⟨0.75, 0.12, 0.0, 0.80⟩),
   ("balsa", ⟨0.15, 0.05, 0.0, 0.88⟩),
   ("bambu", ⟨0.70, 0.16, 0.0, 0.82⟩),
   ("bamboo", ⟨0.70, 0.16, 0.0, 0.82⟩),
   ("kayın", ⟨0.72, 0.17, 0.0, 0.81⟩),
   ("kayin", ⟨0.72, 0.17, 0.0, 0.81⟩),
   ("beech", ⟨0.72, 0.17, 0.0, 0.81⟩),
   ("meşe", ⟨0.80, 0.18, 0.0, 0.79⟩),
   ("mese", ⟨0.80, 0.18, 0.0, 0.79⟩),
   ("oak", ⟨0.80, 0.18, 0.0, 0.79⟩),
   ("ceviz", ⟨0.65, 0.16, 0.0, 0.83⟩),
   ("walnut", ⟨0.65, 0.16, 0.0, 0.83⟩),
   ("akçaağaç", ⟨0.70, 0.17, 0.0, 0.81⟩),
   ("akcaagac", ⟨0.70, 0.17, 0.0, 0.81⟩),
   ("maple", ⟨0.70, 0.17, 0.0, 0.81⟩),
   ("huş", ⟨0.65, 0.15, 0.0, 0.84⟩),
   ("hus", ⟨0.65, 0.15, 0.0, 0.84⟩),
   ("birch", ⟨0.65, 0.15, 0.0, 0.84⟩),
   ("çam", ⟨0.50, 0.12, 0.0, 0.86⟩),
   ("cam", ⟨0.50, 0.12, 0.0, 0.86⟩),
   ("pine", ⟨0.50, 0.12, 0.0, 0.86⟩),
   ("ladin", ⟨0.45, 0.11, 0.0, 0.87⟩),
   ("spruce", ⟨0.45, 0.11, 0.0, 0.87⟩),
   ("fir", ⟨0.45, 0.11, 0.0, 0.87⟩),
   ("deri", ⟨0.85, 0.16, 0.0, 0.75⟩),
   ("leather", ⟨0.85, 0.16, 0.0, 0.75⟩),
   ("karton", ⟨0.45, 0.08, 0.0, 0.90⟩),
   ("cardboard", ⟨0.45, 0.08, 0.0, 0.90⟩),
   ("kağıt", ⟨0.30, 0.05, 0.0, 0.92⟩),
   ("kagit", ⟨0.30, 0.05, 0.0, 0.92⟩),
   ("paper", ⟨0.30, 0.05, 0.0, 0.92⟩),
   ("kumaş", ⟨0.40, 0.06, 0.0, 0.88⟩),
   ("kumas", ⟨0.40, 0.06, 0.0, 0.88⟩),
   ("fabric", ⟨0.40, 0.06, 0.0, 0.88⟩),
   ("keçe", ⟨0.35, 0.05, 0.0, 0.89⟩),
   ("kece", ⟨0.35, 0.05, 0.0, 0.89⟩),
   ("felt", ⟨0.35, 0.05, 0.0, 0.89⟩),
   ("mantar", ⟨0.25, 0.04, 0.0, 0.91⟩),
   ("cork", ⟨0.25, 0.04, 0.0, 0.91⟩),
   ("akrilik", ⟨1.18, 0.19, 0.42, 0.65⟩),
   ("acrylic", ⟨1.18, 0.19, 0.42, 0.65⟩),
   ("plexiglass", ⟨1.18, 0.19, 0.42, 0.65⟩),
   ("pleksiglas", ⟨1.18, 0.19, 0.42, 0.65⟩),
   ("pmma", ⟨1.18, 0.19, 0.42, 0.65⟩),
   ("lastik", ⟨1.10, 0.25, 0.35, 0.70⟩),
   ("rubber", ⟨1.10, 0.25, 0.35, 0.70⟩),
   ("köpük", ⟨0.20, 0.03, 0.30, 0.93⟩),
   ("kopuk", ⟨0.20, 0.03, 0.30, 0.93⟩),
   ("foam", ⟨0.20, 0.03, 0.30, 0.93⟩),
   ("anodize_aluminyum", ⟨2.70, 2.05, 0.80, 0.20⟩),
   ("anodized_aluminum", ⟨2.70, 2.05, 0.80, 0.20⟩),
   ("diger", ⟨0.70, 0.15, 0.0, 0.80⟩),
   ("other", ⟨0.70, 0.15, 0.0, 0.80⟩)]

/-- `MaterialFeatureEncoder.encode`: lowercase and strip the material name,
try an exact table lookup, then a substring match in either direction over
the table keys (first match wins), then the documented default properties;
build the 9-feature vector with the fixed normalization divisors and the
one-hot process encoding. -/
def encode (materialType : String) (thickness laserPower : ℚ)
    (processType : String) : List ℚ :=
  let materialLower := pyStrip (pyLower materialType)
  let exact := MATERIAL_PROPERTIES.lookup materialLower
  let matched := match exact with
    | some p => some p
    | none =>
      (MATERIAL_PROPERTIES.find? (fun (kv : String × MatProps) =>
        pyIn kv.1 materialLower || pyIn materialLower kv.1)).map
        (fun (kv : String × MatProps) => kv.2)
  let props := matched.getD ⟨0.70, 0.15, 0.0, 0.80⟩
  [props.density / 3.0, props.thermal / 2.5, props.melt, props.absorb,
   thickness / 10.0, laserPower / 40.0,
   if processType = "cutting" then 1 else 0,
   if processType = "engraving" then 1 else 0,
   if processType = "scoring" then 1 else 0]

/-- One training record as consumed by `encode_batch` (all seven keys are
accessed by direct indexing, so a missing key raises and the record is
skipped). -/
structure Sample where
  materialType : Option String
  materialThickness : Option ℚ
  laserPower : Option ℚ
  processType : Option String
  targetPower : Option ℚ
  targetSpeed : Option ℚ
  targetPasses : Option ℚ
deriving DecidableEq

/-- The per-record body of the `encode_batch` loop: `none` models the caught
per-record exception (missing key), `some` carries the feature vector and the
three normalized targets. -/
def encodeSample (d : Sample) : Option (List ℚ × ℚ × ℚ × ℚ) := do
  let mt ← d.materialType
  let th ← d.materialThickness
  let lp ← d.laserPower
  let pt ← d.processType
  let tp ← d.targetPower
  let ts ← d.targetSpeed
  let tps ← d.targetPasses
  pure (encode mt th lp pt, tp / 100, ts / 500, tps / 20)

/-- The accumulation loop of `encode_batch`: records that fail to encode are
skipped, the rest contribute to the four parallel output lists in order. -/
def encodeBatchAux : List Sample → List (List ℚ) × List ℚ × List ℚ × List ℚ
  | [] => ([], [], [], [])
  | d :: rest =>
    let r := encodeBatchAux rest
    match encodeSample d with
    | none => r
    | some (x, a, b, c) => (x :: r.1, a :: r.2.1, b :: r.2.2.1, c :: r.2.2.2)

/-- `MaterialFeatureEncoder.encode_batch`: raises (models `raise ValueError`)
exactly when no sample encoded successfully. -/
def encodeBatch (l : List Sample) :
    Except String (List (List ℚ) × List ℚ × List ℚ × List ℚ) :=
  let r := encodeBatchAux l
  if r.1.isEmpty then Except.error "No valid samples to encode" else Except.ok r

/-- Modelled from the spec (for claim C7): the documented default feature
vector for an unknown material — default properties (0.70, 0.15, 0.0, 0.80)
under the fixed divisors, with the one-hot process tail. -/
def specDefaultVector (thickness laserPower : ℚ) (processType : String) : List ℚ :=
  [(0.70 : ℚ) / 3.0, (0.15 : ℚ) / 2.5, 0.0, 0.80,
   thickness / 10.0, laserPower / 40.0,
   if processType = "cutting" then 1 else 0,
   if processType = "engraving" then 1 else 0,
   if processType = "scoring" then 1 else 0]

end FeatureEng

/-! ### Example records used by the witness and counterexample theorems -/

namespace MLPred

/-- A qualifying cutting record: quality 9, passes 1 (weight 9). -/
def expQ9P1 : Exp := ⟨[("cutting", ⟨50, 300, 1⟩)], [("cutting", 9)], 0, none, 20, none⟩

/-- A qualifying cutting record: quality 6, passes 5 (weight 6). -/
def expQ6P5 : Exp := ⟨[("cutting", ⟨50, 300, 5⟩)], [("cutting", 6)], 0, none, 20, none⟩

/-- The spec's example pool with normalized weights (0.1, 0.8, 0.1): three
quality-5 records with passes 1, 3, 5 and approve counts 0, 70, 0, giving raw
weights 5, 40, 5. -/
def examplePoolWM : List Exp :=
  [⟨[("cutting", ⟨50, 300, 1⟩)], [("cutting", 5)], 0, none, 20, none⟩,
   ⟨[("cutting", ⟨50, 300, 3⟩)], [("cutting", 5)], 70, none, 20, none⟩,
   ⟨[("cutting", ⟨50, 300, 5⟩)], [("cutting", 5)], 0, none, 20, none⟩]

/-- A qualifying cutting record with speed 600 (inside the source's
[50, 1000] speed clamp but outside the claimed [50, 500] range). -/
def expSpeed600 : Exp := ⟨[("cutting", ⟨50, 600, 2⟩)], [("cutting", 8)], 0, none, 20, none⟩

/-- A qualifying cutting record taken on a 100 W source laser, passes 3. -/
def expSrc100 : Exp := ⟨[("cutting", ⟨50, 300, 3⟩)], [("cutting", 8)], 0, none, 100, none⟩

/-- Pool of three identical 100 W-source records (scaling counterexample). -/
def poolSrc100 : List Exp := [expSrc100, expSrc100, expSrc100]

/-- Pool of three identical speed-600 records (clamp counterexample). -/
def poolSpeed600 : List Exp := [expSpeed600, expSpeed600, expSpeed600]

/-- A plain qualifying cutting record (power 50, speed 300, passes 2). -/
def expBasic : Exp := ⟨[("cutting", ⟨50, 300, 2⟩)], [("cutting", 8)], 0, none, 20, none⟩

/-- Pool of three plain qualifying records. -/
def poolBasic : List Exp := [expBasic, expBasic, expBasic]

end MLPred

namespace DataQuality

/-- Record with one cutting process and thickness 0 (all other features 0). -/
def zRecThk0 : Experiment :=
  ⟨some "w", some 0, some 0, some [("cutting", ⟨some 0, some 0, some 0⟩)]⟩

/-- Record with one cutting process and thickness 1 (all other features 0). -/
def zRecThk1 : Experiment :=
  ⟨some "w", some 1, some 0, some [("cutting", ⟨some 0, some 0, some 0⟩)]⟩

/-- A record whose `materialThickness` key is present but zero. -/
def recThickness0 : Experiment :=
  ⟨some "wood", some 0, some 20, some [("cutting", ⟨some 50, some 300, some 2⟩)]⟩

end DataQuality

/-! ### Helper lemmas -/

theorem pyRound_ge {α : Type} [LinearOrderedField α] [FloorRing α]
    (z : ℤ) (x : α) (h : (z : α) ≤ x) : z ≤ pyRound x := by
  have hz : z ≤ ⌊x⌋ := Int.le_floor.mpr h
  simp only [pyRound]
  split_ifs <;> omega

theorem pyRound_le {α : Type} [LinearOrderedField α] [FloorRing α]
    (z : ℤ) (x : α) (h : x ≤ (z : α)) : pyRound x ≤ z := by
  have hfl : ⌊x⌋ ≤ z := by
    have h1 : ⌊x⌋ ≤ ⌊(z : α)⌋ := Int.floor_le_floor h
    simpa using h1
  have hstep : (⌊x⌋ : α) < x → ⌊x⌋ < z := by
    intro h2
    have h3 : (⌊x⌋ : α) < (z : α) := lt_of_lt_of_le h2 h
    exact_mod_cast h3
  simp only [pyRound]
  split_ifs with h1 h2 h3
  · exact hfl
  · have : (⌊x⌋ : α) < x := by linarith [Int.floor_le x]
    have := hstep this
    omega
  · exact hfl
  · have h4 : x - (⌊x⌋ : α) = 1/2 := le_antisymm (not_lt.mp h2) (not_lt.mp h1)
    have : (⌊x⌋ : α) < x := by linarith
    have := hstep this
    omega

theorem roundTo_ge {α : Type} [LinearOrderedField α] [FloorRing α]
    (nd : ℕ) (z : ℤ) (x : α) (h : (z : α) ≤ x) : (z : α) ≤ roundTo nd x := by
  have hp : (0 : α) < 10 ^ nd := by positivity
  have h1 : ((z * 10 ^ nd : ℤ) : α) ≤ x * 10 ^ nd := by
    push_cast
    exact mul_le_mul_of_nonneg_right h (le_of_lt hp)
  have h2 : (z * 10 ^ nd : ℤ) ≤ pyRound (x * 10 ^ nd) := pyRound_ge _ _ h1
  rw [roundTo, le_div_iff₀ hp]
  calc (z : α) * 10 ^ nd = ((z * 10 ^ nd : ℤ) : α) := by push_cast; ring
  _ ≤ ((pyRound (x * 10 ^ nd) : ℤ) : α) := by exact_mod_cast h2

theorem roundTo_le {α : Type} [LinearOrderedField α] [FloorRing α]
    (nd : ℕ) (z : ℤ) (x : α) (h : x ≤ (z : α)) : roundTo nd x ≤ (z : α) := by
  have hp : (0 : α) < 10 ^ nd := by positivity
  have h1 : x * 10 ^ nd ≤ ((z * 10 ^ nd : ℤ) : α) := by
    push_cast
    exact mul_le_mul_of_nonneg_right h (le_of_lt hp)
  have h2 : pyRound (x * 10 ^ nd) ≤ z * 10 ^ nd := pyRound_le _ _ h1
  rw [roundTo, div_le_iff₀ hp]
  calc ((pyRound (x * 10 ^ nd) : ℤ) : α) ≤ ((z * 10 ^ nd : ℤ) : α) := by exact_mod_cast h2
  _ = (z : α) * 10 ^ nd := by push_cast; ring

theorem zipWith_mul_map (l : List MLPred.Exp) (f g : MLPred.Exp → ℚ) :
    List.zipWith (· * ·) (l.map f) (l.map g) = l.map (fun e => f e * g e) := by
  induction l with
  | nil => rfl
  | cons h t ih => simp [List.zipWith, ih]

namespace DataQuality

theorem colVar_nonneg (l : List ℚ) : 0 ≤ colVar l := by
  unfold colVar
  apply div_nonneg
  · apply List.sum_nonneg
    intro x hx
    simp only [List.mem_map] at hx
    obtain ⟨y, _, rfl⟩ := hx
    positivity
  · positivity

theorem adjStd_ne_zero (v : ℚ) : adjStd v ≠ 0 := by
  unfold adjStd
  split_ifs with h
  · norm_num
  · exact h

theorem zFlagQ_iff_real (m v t x : ℚ) (hv : 0 ≤ v) :
    zFlagQ m v t x = true ↔ |(x : ℝ) - (m : ℝ)| / adjStd v > (t : ℝ) := by
  unfold zFlagQ adjStd
  by_cases h0 : v = 0
  · subst h0
    rw [if_pos rfl]
    rw [if_pos (by push_cast; exact Real.sqrt_zero)]
    rw [div_one, decide_eq_true_eq]
    constructor
    · intro h
      have : ((|x - m| : ℚ) : ℝ) > ((t : ℚ) : ℝ) := by exact_mod_cast h
      push_cast at this
      linarith [this]
    · intro h
      have h2 : ((|x - m| : ℚ) : ℝ) > ((t : ℚ) : ℝ) := by push_cast; linarith [h]
      exact_mod_cast h2
  · have hvpos : (0 : ℚ) < v := lt_of_le_of_ne hv (Ne.symm h0)
    have hvr : (0 : ℝ) < (v : ℝ) := by exact_mod_cast hvpos
    have hs : (0 : ℝ) < Real.sqrt (v : ℝ) := Real.sqrt_pos.mpr hvr
    rw [if_neg h0, if_neg (ne_of_gt hs), decide_eq_true_eq]
    have key : (|(x : ℝ) - (m : ℝ)| / Real.sqrt (v : ℝ) > (t : ℝ)) ↔
        ((t : ℝ) * Real.sqrt (v : ℝ) < |(x : ℝ) - (m : ℝ)|) := by
      rw [gt_iff_lt, lt_div_iff₀ hs]
    rw [key]
    have hsq : Real.sqrt (v : ℝ) ^ 2 = (v : ℝ) := Real.sq_sqrt (le_of_lt hvr)
    constructor
    · rintro (ht | hgt)
      · have h1 : ((t : ℝ)) < 0 := by exact_mod_cast ht
        have h2 : (t : ℝ) * Real.sqrt (v : ℝ) < 0 := mul_neg_of_neg_of_pos h1 hs
        have h3 : (0 : ℝ) ≤ |(x : ℝ) - (m : ℝ)| := abs_nonneg _
        linarith
      · by_cases ht : t < 0
        · have h1 : ((t : ℝ)) < 0 := by exact_mod_cast ht
          have h2 : (t : ℝ) * Real.sqrt (v : ℝ) < 0 := mul_neg_of_neg_of_pos h1 hs
          linarith [abs_nonneg ((x : ℝ) - (m : ℝ))]
        · push_neg at ht
          have htr : (0 : ℝ) ≤ (t : ℝ) := by exact_mod_cast ht
          have hgq : ((t ^ 2 * v : ℚ) : ℝ) < (((x - m) ^ 2 : ℚ) : ℝ) := by exact_mod_cast hgt
          have hg2 : ((t : ℝ)) ^ 2 * (v : ℝ) < ((x : ℝ) - (m : ℝ)) ^ 2 := by push_cast at hgq; linarith
          have hls : ((t : ℝ) * Real.sqrt (v : ℝ)) ^ 2 < |(x : ℝ) - (m : ℝ)| ^ 2 := by
            rw [mul_pow, hsq, sq_abs]
            exact hg2
          have hnn : (0 : ℝ) ≤ |(x : ℝ) - (m : ℝ)| := abs_nonneg _
          exact lt_of_pow_lt_pow_left₀ 2 hnn hls
    · intro hlt
      by_cases ht : t < 0
      · exact Or.inl ht
      · push_neg at ht
        right
        have htr : (0 : ℝ) ≤ (t : ℝ) := by exact_mod_cast ht
        have hnn : (0 : ℝ) ≤ (t : ℝ) * Real.sqrt (v : ℝ) :=
          mul_nonneg htr (le_of_lt hs)
        have hsqlt : ((t : ℝ) * Real.sqrt (v : ℝ)) ^ 2 < |(x : ℝ) - (m : ℝ)| ^ 2 :=
          pow_lt_pow_left₀ hlt hnn (by omega)
        rw [mul_pow, hsq, sq_abs] at hsqlt
        have hgq : ((t ^ 2 * v : ℚ) : ℝ) < (((x - m) ^ 2 : ℚ) : ℝ) := by push_cast; linarith
        exact_mod_cast hgq

theorem rowsOfRec_length (e : Experiment) :
    (rowsOfRec e).length = (e.processes.getD []).length := by
  simp [rowsOfRec]

theorem any_map_id (l : List (List ℚ)) (f : List ℚ → Bool) :
    (l.map f).any id = l.any f := by
  induction l with
  | nil => rfl
  | cons a t ih => simp [List.any_cons, ih]

theorem flagsAux_flatMap (f : List ℚ → Bool) (exps : List Experiment) :
    flagsAux exps ((exps.flatMap rowsOfRec).map f) =
      exps.map (fun e => (rowsOfRec e).any f) := by
  induction exps with
  | nil => rfl
  | cons e rest ih =>
    rw [List.flatMap_cons, List.map_append]
    by_cases h0 : (e.processes.getD []).length = 0
    · have hr : rowsOfRec e = [] := by
        have hl := rowsOfRec_length e
        rw [h0] at hl
        exact List.length_eq_zero.mp hl
      simp only [flagsAux, if_pos h0, List.map_cons]
      rw [hr]
      simp only [List.map_nil, List.nil_append, ih, hr, List.any_nil]
    · have hlen : ((rowsOfRec e).map f).length = (e.processes.getD []).length := by
        rw [List.length_map, rowsOfRec_length]
      simp only [flagsAux, if_neg h0, List.map_cons]
      rw [← hlen, List.take_left, List.drop_left, ih, any_map_id]

theorem zipfilter_fst (l : List Experiment) (g : Experiment → Bool) (h : Bool → Bool) :
    ((l.zip (l.map g)).filter (fun p => h p.2)).map Prod.fst =
      l.filter (fun e => h (g e)) := by
  induction l with
  | nil => rfl
  | cons a t ih =>
    cases hga : h (g a) with
    | false => simp [List.filter_cons, hga, ih]
    | true => simp [List.filter_cons, hga, ih]

end DataQuality

theorem roundTo_clamp_bounds {α : Type} [LinearOrderedField α] [FloorRing α]
    (nd : ℕ) (a b : ℤ) (x : α) (hab : (a : α) ≤ (b : α)) :
    (a : α) ≤ roundTo nd (max (a : α) (min (b : α) x)) ∧
      roundTo nd (max (a : α) (min (b : α) x)) ≤ (b : α) :=
  ⟨roundTo_ge nd a _ (le_max_left _ _),
   roundTo_le nd b _ (max_le hab (min_le_left _ _))⟩

namespace MLPred

theorem calculateAverageParams_bounds (exps : List Exp) (pt : String) :
    10 ≤ (calculateAverageParams exps pt).power ∧
    (calculateAverageParams exps pt).power ≤ 100 ∧
    50 ≤ (calculateAverageParams exps pt).speed ∧
    (calculateAverageParams exps pt).speed ≤ 1000 ∧
    1 ≤ (calculateAverageParams exps pt).passes ∧
    (calculateAverageParams exps pt).passes ≤ 10 := by
  have hp := roundTo_clamp_bounds (α := ℚ) 1 10 100
  have hs := roundTo_clamp_bounds (α := ℚ) 0 50 1000
  push_cast at hp hs
  unfold calculateAverageParams
  refine ⟨(hp _ (by norm_num)).1, (hp _ (by norm_num)).2,
    (hs _ (by norm_num)).1, (hs _ (by norm_num)).2, ?_, ?_⟩ <;> simp

theorem castBase_bounds (b : BaseOut)
    (hb : 10 ≤ b.power ∧ b.power ≤ 100 ∧ 50 ≤ b.speed ∧ b.speed ≤ 1000 ∧
      1 ≤ b.passes ∧ b.passes ≤ 10) :
    (10 : ℝ) ≤ (castBase b).power ∧ (castBase b).power ≤ 100 ∧
    (50 : ℝ) ≤ (castBase b).speed ∧ (castBase b).speed ≤ 1000 ∧
    (1 : ℤ) ≤ (castBase b).passes ∧ (castBase b).passes ≤ 10 := by
  obtain ⟨h1, h2, h3, h4, h5, h6⟩ := hb
  refine ⟨?_, ?_, ?_, ?_, h5, h6⟩ <;> simp [castBase] <;> exact_mod_cast by assumption

theorem scaleByPower_bounds (b : BaseOut) (sp tp : ℚ)
    (hb : 10 ≤ b.power ∧ b.power ≤ 100 ∧ 50 ≤ b.speed ∧ b.speed ≤ 1000 ∧
      1 ≤ b.passes ∧ b.passes ≤ 10) :
    (10 : ℝ) ≤ (scaleByPower b sp tp).power ∧ (scaleByPower b sp tp).power ≤ 100 ∧
    (50 : ℝ) ≤ (scaleByPower b sp tp).speed ∧ (scaleByPower b sp tp).speed ≤ 1000 ∧
    (1 : ℤ) ≤ (scaleByPower b sp tp).passes ∧ (scaleByPower b sp tp).passes ≤ 10 := by
  unfold scaleByPower
  split_ifs with h
  · exact castBase_bounds b hb
  · have hp := roundTo_clamp_bounds (α := ℝ) 1 10 100
    have hs := roundTo_clamp_bounds (α := ℝ) 0 50 1000
    push_cast at hp hs
    refine ⟨(hp _ (by norm_num)).1, (hp _ (by norm_num)).2,
      (hs _ (by norm_num)).1, (hs _ (by norm_num)).2, ?_, ?_⟩ <;> simp

end MLPred

namespace FeatureEng

theorem encodeBatchAux_eq (l : List Sample) :
    encodeBatchAux l =
      ((l.filterMap encodeSample).map (fun r => r.1),
       (l.filterMap encodeSample).map (fun r => r.2.1),
       (l.filterMap encodeSample).map (fun r => r.2.2.1),
       (l.filterMap encodeSample).map (fun r => r.2.2.2)) := by
  induction l with
  | nil => rfl
  | cons d rest ih =>
    rw [List.filterMap_cons]
    cases hd : encodeSample d with
    | none => simp only [encodeBatchAux, hd, ih]
    | some v =>
      obtain ⟨x, a, b, c⟩ := v
      simp only [encodeBatchAux, hd, ih, List.map_cons]

end FeatureEng

/-! ### Claim theorems -/

/-- C9: for every list of experiment records (and every synthetic-record
generator standing in for the randomized `_create_synthetic_experiment`),
`augment_data(records, factor=1)` returns exactly the original records
unchanged, since `factor - 1 = 0` perturbations are generated per original. -/
theorem augmentData_factor_one_id
    (gen : DataQuality.Experiment → ℕ → Option DataQuality.Experiment)
    (exps : List DataQuality.Experiment) :
    DataQuality.augmentData gen exps 1 = exps := by
  have h0 : exps.flatMap (fun e => (List.range ((1 : ℤ) - 1).toNat).filterMap (gen e)) = [] :=
    List.flatMap_eq_nil_iff.mpr (by intro x _; rfl)
  rw [DataQuality.augmentData, h0, List.append_nil]

/-- C6: `encode_batch` skips every record that fails to encode and never
propagates the per-record failure; it returns the error (`raise` in the
source) exactly when no record encoded successfully, and otherwise returns
the four parallel arrays of exactly the successfully encoded records, in
input order. -/
theorem encodeBatch_skip_or_error (l : List FeatureEng.Sample) :
    FeatureEng.encodeBatch l =
      (if (l.filterMap FeatureEng.encodeSample).isEmpty then
        Except.error "No valid samples to encode"
      else Except.ok
        ((l.filterMap FeatureEng.encodeSample).map (fun r => r.1),
         (l.filterMap FeatureEng.encodeSample).map (fun r => r.2.1),
         (l.filterMap FeatureEng.encodeSample).map (fun r => r.2.2.1),
         (l.filterMap FeatureEng.encodeSample).map (fun r => r.2.2.2))) := by
  rw [FeatureEng.encodeBatch, FeatureEng.encodeBatchAux_eq]
  by_cases h : (l.filterMap FeatureEng.encodeSample).isEmpty
  · simp [h, List.isEmpty_iff.mp h]
  · have hne : l.filterMap FeatureEng.encodeSample ≠ [] := by
      intro hnil
      rw [hnil] at h
      exact h rfl
    simp [h, List.isEmpty_iff, hne]

/-- C2 counterexample: the claim says passes are aggregated by weighted
median. On the qualifying pool with (passes 1, weight 9) and (passes 5,
weight 6) the weighted median (as the claim describes it) is 1, but the code
computes `round` of the weighted mean `39/15 = 2.6`, i.e. 3. -/
theorem passes_weighted_median_ce :
    MLPred.expWeight MLPred.expQ9P1 "cutting" = 9 ∧
    MLPred.expWeight MLPred.expQ6P5 "cutting" = 6 ∧
    ((MLPred.calculateAverageParams [MLPred.expQ9P1, MLPred.expQ6P5] "cutting").passes : ℚ) = 3 ∧
    MLPred.specWeightedMedianPasses [(1, 9), (5, 6)] = 1 ∧
    ((MLPred.calculateAverageParams [MLPred.expQ9P1, MLPred.expQ6P5] "cutting").passes : ℚ) ≠
      MLPred.specWeightedMedianPasses [(1, 9), (5, 6)] := by
  have hw1 : MLPred.expWeight MLPred.expQ9P1 "cutting" = 9 := by
    simp [MLPred.expWeight, MLPred.expQ9P1, MLPred.isGold, List.lookup]
  have hw2 : MLPred.expWeight MLPred.expQ6P5 "cutting" = 6 := by
    simp [MLPred.expWeight, MLPred.expQ6P5, MLPred.isGold, List.lookup]
  have hmed : MLPred.specWeightedMedianPasses [(1, 9), (5, 6)] = 1 := by
    simp only [MLPred.specWeightedMedianPasses, List.insertionSort, List.orderedInsert]
    norm_num [MLPred.specWMAux]
  have hpass : ((MLPred.calculateAverageParams [MLPred.expQ9P1, MLPred.expQ6P5]
      "cutting").passes : ℚ) = 3 := by
    have hp1 : MLPred.procOf MLPred.expQ9P1 "cutting" = ⟨50, 300, 1⟩ := by rfl
    have hp2 : MLPred.procOf MLPred.expQ6P5 "cutting" = ⟨50, 300, 5⟩ := by rfl
    simp only [MLPred.calculateAverageParams, List.map_cons, List.map_nil, hp1, hp2, hw1, hw2]
    norm_num [pyRound, Int.fract]
  refine ⟨hw1, hw2, hpass, hmed, ?_⟩
  rw [hpass, hmed]
  norm_num

set_option maxRecDepth 8000 in
/-- C2 (amended): the predicted pass count is the banker's-rounded
similarity-weighted mean of the qualifying candidates' pass counts, clamped
to [1, 10] — not the weighted median; on the spec's example pool with
normalized weights (0.1, 0.8, 0.1) over passes (1, 3, 5) both aggregations
agree and give 3. -/
theorem passes_rounded_weighted_mean (exps : List MLPred.Exp) (pt : String) :
    (MLPred.calculateAverageParams exps pt).passes =
      max 1 (min 10 (pyRound
        ((exps.map (fun e => (MLPred.procOf e pt).passes * MLPred.expWeight e pt)).sum /
         (exps.map (fun e => MLPred.expWeight e pt)).sum))) ∧
    MLPred.specWeightedMedianPasses [(1, 5), (3, 40), (5, 5)] = 3 ∧
    (MLPred.calculateAverageParams MLPred.examplePoolWM "cutting").passes = 3 := by
  refine ⟨?_, ?_, ?_⟩
  · simp only [MLPred.calculateAverageParams]
    rw [zipWith_mul_map]
  · simp only [MLPred.specWeightedMedianPasses, List.insertionSort, List.orderedInsert]
    norm_num [MLPred.specWMAux]
  · have h1 : MLPred.examplePoolWM.map (fun e => (MLPred.procOf e "cutting").passes) =
        [1, 3, 5] := by rfl
    have h2 : MLPred.examplePoolWM.map (fun e => MLPred.expWeight e "cutting") =
        [5, 40, 5] := by
      simp [MLPred.examplePoolWM, MLPred.expWeight, MLPred.isGold, List.lookup]
      norm_num
    simp only [MLPred.calculateAverageParams, h1, h2]
    norm_num [pyRound, Int.fract, List.zipWith]

/-- C10: `validate_experiment` treats a required field that is present but
Python-falsy (`0`, `''`, `{}`) as missing: the result is invalid and the
errors contain a "Missing required field" entry naming that field. -/
theorem validateExperiment_falsy_missing (e : DataQuality.Experiment) (f : String)
    (h : DataQuality.presentFalsy e f = true) :
    (DataQuality.validateExperiment e).1 = false ∧
      DataQuality.VError.missing f ∈ (DataQuality.validateExperiment e).2 := by
  have step : DataQuality.VError.missing f ∈ (DataQuality.validateExperiment e).2 := by
    unfold DataQuality.presentFalsy at h
    split_ifs at h with h1 h2 h3 h4
    · subst h1
      have ht : DataQuality.truthyStr e.materialType = false := by
        simp only [Bool.and_eq_true] at h
        simpa using h.2
      simp [DataQuality.validateExperiment, ht]
    · subst h2
      have ht : DataQuality.truthyNum e.materialThickness = false := by
        simp only [Bool.and_eq_true] at h
        simpa using h.2
      simp [DataQuality.validateExperiment, ht]
    · subst h3
      have ht : DataQuality.truthyNum e.laserPower = false := by
        simp only [Bool.and_eq_true] at h
        simpa using h.2
      simp [DataQuality.validateExperiment, ht]
    · subst h4
      have ht : DataQuality.truthyProcs e.processes = false := by
        simp only [Bool.and_eq_true] at h
        simpa using h.2
      simp [DataQuality.validateExperiment, ht]
  refine ⟨?_, step⟩
  have hne : (DataQuality.validateExperiment e).2 ≠ [] := List.ne_nil_of_mem step
  have hfst : (DataQuality.validateExperiment e).1 =
      (DataQuality.validateExperiment e).2.isEmpty := rfl
  rw [hfst]
  simpa [List.isEmpty_iff] using hne

/-- C10 witness: a record whose `materialThickness` key is present with value
0 is rejected with a missing-field error for `materialThickness`. -/
theorem validateExperiment_falsy_missing_witness :
    DataQuality.presentFalsy DataQuality.recThickness0 "materialThickness" = true ∧
    ((DataQuality.validateExperiment DataQuality.recThickness0).1 = false ∧
      DataQuality.VError.missing "materialThickness" ∈
        (DataQuality.validateExperiment DataQuality.recThickness0).2) :=
  ⟨by decide, validateExperiment_falsy_missing _ _ (by decide)⟩

/-- C1: when fewer than `min_data_points = 3` pool records contain a
parameter set for the requested process with a quality score of at least
`quality_threshold = 5`, the predictor returns no result, confidence 0.0 and
the "Yetersiz veri" (insufficient data) note — regardless of the material,
thickness and target-power arguments. -/
theorem predict_insufficient_data (exps : List MLPred.Exp) (pt mt : String) (th : ℚ)
    (tp : Option ℚ)
    (h : (MLPred.relevantFilter exps pt).length < 3) :
    MLPred.predictFromData exps pt mt th tp =
      (none, 0, "Yetersiz veri (" ++
        toString (MLPred.relevantFilter exps pt).length ++ " deney)") := by
  unfold MLPred.predictFromData
  rw [if_pos h]

/-- C1 witness: a pool of two qualifying records yields
`(none, 0, "Yetersiz veri (2 deney)")`. -/
theorem predict_insufficient_data_witness :
    (MLPred.relevantFilter [MLPred.expQ9P1, MLPred.expQ6P5] "cutting").length < 3 ∧
    MLPred.predictFromData [MLPred.expQ9P1, MLPred.expQ6P5] "cutting" "ahşap" 3 (some 20) =
      (none, 0, "Yetersiz veri (" ++
        toString (MLPred.relevantFilter [MLPred.expQ9P1, MLPred.expQ6P5] "cutting").length ++
        " deney)") :=
  ⟨by decide, predict_insufficient_data _ _ _ _ _ (by decide)⟩

/-- C7: for a material name that, after lowercasing and trimming, neither
equals a key of the material-properties table nor matches any key by
substring containment in either direction, `encode` returns the feature
vector built from the documented default properties (density 0.70, thermal
0.15, melt 0.0, absorb 0.80) under the fixed normalization divisors, with
exactly one of the three trailing process dimensions set to 1 for a valid
process type. -/
theorem encode_unknown_material_default (m : String) (th pw : ℚ) (pc : String)
    (h1 : FeatureEng.MATERIAL_PROPERTIES.lookup (pyStrip (pyLower m)) = none)
    (h2 : ∀ kv ∈ FeatureEng.MATERIAL_PROPERTIES,
      pyIn kv.1 (pyStrip (pyLower m)) = false ∧ pyIn (pyStrip (pyLower m)) kv.1 = false)
    (h3 : pc = "cutting" ∨ pc = "engraving" ∨ pc = "scoring") :
    FeatureEng.encode m th pw pc = FeatureEng.specDefaultVector th pw pc ∧
    ((FeatureEng.encode m th pw pc).drop 6).count 1 = 1 := by
  have hfind : FeatureEng.MATERIAL_PROPERTIES.find?
      (fun (kv : String × FeatureEng.MatProps) =>
        pyIn kv.1 (pyStrip (pyLower m)) || pyIn (pyStrip (pyLower m)) kv.1) = none := by
    apply List.find?_eq_none.mpr
    intro kv hkv
    obtain ⟨ha, hb⟩ := h2 kv hkv
    simp [ha, hb]
  have henc : FeatureEng.encode m th pw pc = FeatureEng.specDefaultVector th pw pc := by
    simp only [FeatureEng.encode]
    rw [h1, hfind]
    rfl
  refine ⟨henc, ?_⟩
  rw [henc]
  rcases h3 with h | h | h <;> subst h <;> simp [FeatureEng.specDefaultVector]

/-- C7 witness: "Unobtainium" matches no table key exactly or by substring,
so it is encoded with the default property vector. -/
theorem encode_unknown_material_default_witness :
    FeatureEng.MATERIAL_PROPERTIES.lookup (pyStrip (pyLower "Unobtainium")) = none ∧
    (∀ kv ∈ FeatureEng.MATERIAL_PROPERTIES,
      pyIn kv.1 (pyStrip (pyLower "Unobtainium")) = false ∧
      pyIn (pyStrip (pyLower "Unobtainium")) kv.1 = false) ∧
    (FeatureEng.encode "Unobtainium" 3 20 "cutting" =
        FeatureEng.specDefaultVector 3 20 "cutting" ∧
      ((FeatureEng.encode "Unobtainium" 3 20 "cutting").drop 6).count 1 = 1) :=
  ⟨by decide, by decide,
   encode_unknown_material_default "Unobtainium" 3 20 "cutting" (by decide) (by decide)
     (Or.inl rfl)⟩

theorem predict_fst_some (exps : List MLPred.Exp) (pt mt : String) (th : ℚ) (tp : Option ℚ)
    (h : ¬ (MLPred.relevantFilter exps pt).length < 3) :
    (MLPred.predictFromData exps pt mt th tp).1 =
      some (if MLPred.optTruthy tp && decide
          ((if MLPred.optTruthy tp then |MLPred.avgSourceOf exps pt - tp.getD 0| else 0) > 20)
        then MLPred.scaleByPower (MLPred.baseOf exps pt) (MLPred.avgSourceOf exps pt) (tp.getD 0)
        else MLPred.castBase (MLPred.baseOf exps pt)) := by
  simp only [MLPred.predictFromData, MLPred.avgSourceOf, MLPred.baseOf]
  rw [if_neg h]

theorem predict_fst_none (exps : List MLPred.Exp) (pt mt : String) (th : ℚ) (tp : Option ℚ)
    (h : (MLPred.relevantFilter exps pt).length < 3) :
    (MLPred.predictFromData exps pt mt th tp).1 = none := by
  simp only [MLPred.predictFromData]
  rw [if_pos h]

/-- C3 counterexample: the claim says passes are adjusted by +1 whenever
`ratio < 0.7`. On a pool whose mean source power is 100 W with target power
60 W (`ratio = 0.6`, difference 40 W > tolerance), the source leaves the base
pass count 3 unchanged (its threshold is `ratio < 0.5`), while the claimed
adjustment demands 4. -/
theorem rescale_passes_ce :
    ((MLPred.predictFromData MLPred.poolSrc100 "cutting" "ahşap" 3 (some 60)).1).map
      (fun p => p.passes) = some 3 ∧
    (MLPred.baseOf MLPred.poolSrc100 "cutting").passes = 3 ∧
    MLPred.avgSourceOf MLPred.poolSrc100 "cutting" = 100 ∧
    MLPred.specPassAdjust (60 / MLPred.avgSourceOf MLPred.poolSrc100 "cutting") 3 = 4 := by
  have hf : MLPred.relevantFilter MLPred.poolSrc100 "cutting" = MLPred.poolSrc100 := by rfl
  have havg : MLPred.avgSourceOf MLPred.poolSrc100 "cutting" = 100 := by
    rw [MLPred.avgSourceOf, hf]
    norm_num [MLPred.poolSrc100, MLPred.expSrc100, qmean]
  have hcalc : MLPred.calculateAverageParams MLPred.poolSrc100 "cutting" = ⟨50, 300, 3⟩ := by
    have hP : MLPred.poolSrc100.map (fun e => (MLPred.procOf e "cutting").power) =
        [50, 50, 50] := by rfl
    have hS : MLPred.poolSrc100.map (fun e => (MLPred.procOf e "cutting").speed) =
        [300, 300, 300] := by rfl
    have hA : MLPred.poolSrc100.map (fun e => (MLPred.procOf e "cutting").passes) =
        [3, 3, 3] := by rfl
    have hW : MLPred.poolSrc100.map (fun e => MLPred.expWeight e "cutting") = [8, 8, 8] := by
      simp [MLPred.poolSrc100, MLPred.expSrc100, MLPred.expWeight, MLPred.isGold, List.lookup]
    simp only [MLPred.calculateAverageParams, hP, hS, hA, hW]
    norm_num [qmedian, List.insertionSort, List.orderedInsert, pyRound, Int.fract, roundTo,
      List.zipWith]
  have hb : MLPred.baseOf MLPred.poolSrc100 "cutting" = ⟨50, 300, 3⟩ := by
    rw [MLPred.baseOf, hf]
    exact hcalc
  have h3 : ¬ (MLPred.relevantFilter MLPred.poolSrc100 "cutting").length < 3 := by decide
  refine ⟨?_, by rw [hb], havg, by rw [havg]; norm_num [MLPred.specPassAdjust]⟩
  rw [predict_fst_some MLPred.poolSrc100 "cutting" "ahşap" 3 (some 60) h3, havg, hb]
  simp only [Option.getD_some]
  have hcond : (MLPred.optTruthy (some (60 : ℚ)) && decide
      ((if MLPred.optTruthy (some (60 : ℚ)) then |(100 : ℚ) - 60| else 0) > 20)) = true := by
    norm_num [MLPred.optTruthy]
  rw [hcond]
  simp only [if_true]
  simp only [MLPred.scaleByPower]
  rw [if_neg (by norm_num : ¬ ((100 : ℚ) ≤ 0 ∨ (60 : ℚ) ≤ 0))]
  simp only [Option.map_some']
  norm_num

/-- C3 (amended): writing `avg` for the filtered pool's mean source power,
when the target power is truthy and `|avg - target| > power_tolerance = 20`
the predictor returns `_scale_by_power` of the base estimates, which (for
positive source and target powers) rescales with `ratio = target/avg` as
`power' = power / ratio^0.5` and `speed' = speed × ratio^0.4` (clamped and
rounded), and adjusts passes by +1 only if `ratio < 0.5`, never subtracting;
when the difference is within tolerance (or the target power is 0) the base
estimates are returned without rescaling. -/
theorem predict_power_rescaling (exps : List MLPred.Exp) (pt mt : String) (th tp : ℚ)
    (h3 : ¬ (MLPred.relevantFilter exps pt).length < 3) :
    ((tp ≠ 0 ∧ 20 < |MLPred.avgSourceOf exps pt - tp|) →
      (MLPred.predictFromData exps pt mt th (some tp)).1 =
        some (MLPred.scaleByPower (MLPred.baseOf exps pt) (MLPred.avgSourceOf exps pt) tp)) ∧
    ((tp = 0 ∨ |MLPred.avgSourceOf exps pt - tp| ≤ 20) →
      (MLPred.predictFromData exps pt mt th (some tp)).1 =
        some (MLPred.castBase (MLPred.baseOf exps pt))) ∧
    (∀ b : MLPred.BaseOut, 0 < MLPred.avgSourceOf exps pt → 0 < tp →
      MLPred.scaleByPower b (MLPred.avgSourceOf exps pt) tp =
        { power := roundTo 1 (max 10 (min 100 ((b.power : ℝ) /
            ((tp / MLPred.avgSourceOf exps pt : ℚ) : ℝ) ^ (0.5 : ℝ))))
          speed := roundTo 0 (max 50 (min 1000 ((b.speed : ℝ) *
            ((tp / MLPred.avgSourceOf exps pt : ℚ) : ℝ) ^ (0.4 : ℝ))))
          passes := max 1 (min 10 (if (tp / MLPred.avgSourceOf exps pt : ℚ) < 1/2
            then b.passes + 1 else b.passes)) }) := by
  refine ⟨?_, ?_, ?_⟩
  · rintro ⟨ht, hd⟩
    rw [predict_fst_some exps pt mt th (some tp) h3]
    simp only [Option.getD_some]
    have hot : MLPred.optTruthy (some tp) = true := by simp [MLPred.optTruthy, ht]
    have hcond : (MLPred.optTruthy (some tp) && decide
        ((if MLPred.optTruthy (some tp) then |MLPred.avgSourceOf exps pt - tp| else 0) > 20)) =
          true := by
      simp [hot, hd]
    rw [hcond]
    simp
  · intro hcase
    rw [predict_fst_some exps pt mt th (some tp) h3]
    simp only [Option.getD_some]
    have hcond : (MLPred.optTruthy (some tp) && decide
        ((if MLPred.optTruthy (some tp) then |MLPred.avgSourceOf exps pt - tp| else 0) > 20)) =
          false := by
      rcases hcase with h0 | hle
      · simp [MLPred.optTruthy, h0]
      · cases hot : MLPred.optTruthy (some tp) with
        | false => simp [hot]
        | true =>
          simp only [hot, Bool.true_and, if_pos rfl]
          rw [decide_eq_false_iff_not]
          exact not_lt.mpr hle
    rw [hcond]
    simp
  · intro b havg htp
    simp only [MLPred.scaleByPower]
    rw [if_neg (by
      rw [not_or]
      exact ⟨not_le.mpr havg, not_le.mpr htp⟩)]

/-- C3 witness: the rescaling characterization applied to the 100 W pool with
target power 60 W. -/
theorem predict_power_rescaling_witness :
    (¬ (MLPred.relevantFilter MLPred.poolSrc100 "cutting").length < 3) ∧
    ((((60 : ℚ) ≠ 0 ∧ 20 < |MLPred.avgSourceOf MLPred.poolSrc100 "cutting" - 60|) →
      (MLPred.predictFromData MLPred.poolSrc100 "cutting" "ahşap" 3 (some 60)).1 =
        some (MLPred.scaleByPower (MLPred.baseOf MLPred.poolSrc100 "cutting")
          (MLPred.avgSourceOf MLPred.poolSrc100 "cutting") 60)) ∧
    (((60 : ℚ) = 0 ∨ |MLPred.avgSourceOf MLPred.poolSrc100 "cutting" - 60| ≤ 20) →
      (MLPred.predictFromData MLPred.poolSrc100 "cutting" "ahşap" 3 (some 60)).1 =
        some (MLPred.castBase (MLPred.baseOf MLPred.poolSrc100 "cutting"))) ∧
    (∀ b : MLPred.BaseOut, 0 < MLPred.avgSourceOf MLPred.poolSrc100 "cutting" →
        0 < (60 : ℚ) →
      MLPred.scaleByPower b (MLPred.avgSourceOf MLPred.poolSrc100 "cutting") 60 =
        { power := roundTo 1 (max 10 (min 100 ((b.power : ℝ) /
            ((60 / MLPred.avgSourceOf MLPred.poolSrc100 "cutting" : ℚ) : ℝ) ^ (0.5 : ℝ))))
          speed := roundTo 0 (max 50 (min 1000 ((b.speed : ℝ) *
            ((60 / MLPred.avgSourceOf MLPred.poolSrc100 "cutting" : ℚ) : ℝ) ^ (0.4 : ℝ))))
          passes := max 1 (min 10
            (if (60 / MLPred.avgSourceOf MLPred.poolSrc100 "cutting" : ℚ) < 1/2
            then b.passes + 1 else b.passes)) })) :=
  ⟨by decide, predict_power_rescaling MLPred.poolSrc100 "cutting" "ahşap" 3 60 (by decide)⟩

/-- C4 counterexample: the claim says speed is clamped into [50, 500]. The
source clamps speed into [50, 1000]: a qualifying pool whose records all have
speed 600 produces a data-backed prediction with speed 600, outside the
claimed range. -/
theorem clamp_ranges_ce :
    ((MLPred.predictFromData MLPred.poolSpeed600 "cutting" "ahşap" 3 none).1).map
      (fun p => p.speed) = some 600 ∧
    ¬ ((600 : ℝ) ≤ 500) := by
  refine ⟨?_, by norm_num⟩
  have hf : MLPred.relevantFilter MLPred.poolSpeed600 "cutting" = MLPred.poolSpeed600 := by rfl
  have hcalc : MLPred.calculateAverageParams MLPred.poolSpeed600 "cutting" = ⟨50, 600, 2⟩ := by
    have hP : MLPred.poolSpeed600.map (fun e => (MLPred.procOf e "cutting").power) =
        [50, 50, 50] := by rfl
    have hS : MLPred.poolSpeed600.map (fun e => (MLPred.procOf e "cutting").speed) =
        [600, 600, 600] := by rfl
    have hA : MLPred.poolSpeed600.map (fun e => (MLPred.procOf e "cutting").passes) =
        [2, 2, 2] := by rfl
    have hW : MLPred.poolSpeed600.map (fun e => MLPred.expWeight e "cutting") = [8, 8, 8] := by
      simp [MLPred.poolSpeed600, MLPred.expSpeed600, MLPred.expWeight, MLPred.isGold,
        List.lookup]
    simp only [MLPred.calculateAverageParams, hP, hS, hA, hW]
    norm_num [qmedian, List.insertionSort, List.orderedInsert, pyRound, Int.fract, roundTo,
      List.zipWith]
  have hb : MLPred.baseOf MLPred.poolSpeed600 "cutting" = ⟨50, 600, 2⟩ := by
    rw [MLPred.baseOf, hf]
    exact hcalc
  have h3 : ¬ (MLPred.relevantFilter MLPred.poolSpeed600 "cutting").length < 3 := by decide
  rw [predict_fst_some MLPred.poolSpeed600 "cutting" "ahşap" 3 none h3, hb]
  have hcond : (MLPred.optTruthy none && decide
      ((if MLPred.optTruthy none
        then |MLPred.avgSourceOf MLPred.poolSpeed600 "cutting" - (none : Option ℚ).getD 0|
        else 0) > 20)) = false := by
    simp [MLPred.optTruthy]
  rw [hcond]
  simp [MLPred.castBase]

/-- C4 (amended): every data-backed prediction, on both the unscaled and the
power-rescaled path, is clamped into power ∈ [10, 100], speed ∈ [50, 1000]
and passes ∈ [1, 10] (the source's clamp bounds; the claimed [50, 500] and
[1, 20] are wrong for speed and passes). -/
theorem predict_output_bounds (exps : List MLPred.Exp) (pt mt : String) (th : ℚ)
    (tp : Option ℚ) (p : MLPred.ScaledOut)
    (h : (MLPred.predictFromData exps pt mt th tp).1 = some p) :
    (10 : ℝ) ≤ p.power ∧ p.power ≤ 100 ∧ (50 : ℝ) ≤ p.speed ∧ p.speed ≤ 1000 ∧
    (1 : ℤ) ≤ p.passes ∧ p.passes ≤ 10 := by
  by_cases h3 : (MLPred.relevantFilter exps pt).length < 3
  · rw [predict_fst_none exps pt mt th tp h3] at h
    exact absurd h (by simp)
  · rw [predict_fst_some exps pt mt th tp h3] at h
    have hbb := MLPred.calculateAverageParams_bounds (MLPred.relevantFilter exps pt) pt
    have hb0 : MLPred.baseOf exps pt =
        MLPred.calculateAverageParams (MLPred.relevantFilter exps pt) pt := rfl
    rw [← hb0] at hbb
    obtain rfl := (Option.some.inj h).symm
    by_cases hc : (MLPred.optTruthy tp && decide
        ((if MLPred.optTruthy tp then |MLPred.avgSourceOf exps pt - tp.getD 0| else 0) > 20)) =
          true
    · rw [if_pos hc]
      exact MLPred.scaleByPower_bounds _ _ _ hbb
    · rw [if_neg hc]
      exact MLPred.castBase_bounds _ hbb

/-- C4 witness: the bounds applied to a concrete data-backed prediction. -/
theorem predict_output_bounds_witness :
    (MLPred.predictFromData MLPred.poolBasic "cutting" "ahşap" 3 none).1 =
      some (MLPred.castBase ⟨50, 300, 2⟩) ∧
    ((10 : ℝ) ≤ (MLPred.castBase ⟨50, 300, 2⟩).power ∧
      (MLPred.castBase ⟨50, 300, 2⟩).power ≤ 100 ∧
      (50 : ℝ) ≤ (MLPred.castBase ⟨50, 300, 2⟩).speed ∧
      (MLPred.castBase ⟨50, 300, 2⟩).speed ≤ 1000 ∧
      (1 : ℤ) ≤ (MLPred.castBase ⟨50, 300, 2⟩).passes ∧
      (MLPred.castBase ⟨50, 300, 2⟩).passes ≤ 10) := by
  have hf : MLPred.relevantFilter MLPred.poolBasic "cutting" = MLPred.poolBasic := by rfl
  have hcalc : MLPred.calculateAverageParams MLPred.poolBasic "cutting" = ⟨50, 300, 2⟩ := by
    have hP : MLPred.poolBasic.map (fun e => (MLPred.procOf e "cutting").power) =
        [50, 50, 50] := by rfl
    have hS : MLPred.poolBasic.map (fun e => (MLPred.procOf e "cutting").speed) =
        [300, 300, 300] := by rfl
    have hA : MLPred.poolBasic.map (fun e => (MLPred.procOf e "cutting").passes) =
        [2, 2, 2] := by rfl
    have hW : MLPred.poolBasic.map (fun e => MLPred.expWeight e "cutting") = [8, 8, 8] := by
      simp [MLPred.poolBasic, MLPred.expBasic, MLPred.expWeight, MLPred.isGold, List.lookup]
    simp only [MLPred.calculateAverageParams, hP, hS, hA, hW]
    norm_num [qmedian, List.insertionSort, List.orderedInsert, pyRound, Int.fract, roundTo,
      List.zipWith]
  have hb : MLPred.baseOf MLPred.poolBasic "cutting" = ⟨50, 300, 2⟩ := by
    rw [MLPred.baseOf, hf]
    exact hcalc
  have h3 : ¬ (MLPred.relevantFilter MLPred.poolBasic "cutting").length < 3 := by decide
  have hEval : (MLPred.predictFromData MLPred.poolBasic "cutting" "ahşap" 3 none).1 =
      some (MLPred.castBase ⟨50, 300, 2⟩) := by
    rw [predict_fst_some MLPred.poolBasic "cutting" "ahşap" 3 none h3, hb]
    have hcond : (MLPred.optTruthy none && decide
        ((if MLPred.optTruthy none
          then |MLPred.avgSourceOf MLPred.poolBasic "cutting" - (none : Option ℚ).getD 0|
          else 0) > 20)) = false := by
      simp [MLPred.optTruthy]
    rw [hcond]
    simp
  exact ⟨hEval, predict_output_bounds MLPred.poolBasic "cutting" "ahşap" 3 none _ hEval⟩

/-- C5: for every input list of experiment records and every method and
threshold, `detect_outliers` splits the input into the records whose flag
(some per-process feature row flagged by the chosen mask) is false and those
where it is true — so the two outputs are order-preserving complementary
sublists of the input, their concatenation is a permutation of the input
(multiplicities preserved), they are disjoint, and a record with zero
processes is never an outlier. -/
theorem detect_outliers_partition (exps : List DataQuality.Experiment) (method : String)
    (t : ℚ) :
    (DataQuality.detectOutliers exps method t).1 =
      exps.filter (fun e => !(DataQuality.recordFlag exps method t e)) ∧
    (DataQuality.detectOutliers exps method t).2 =
      exps.filter (fun e => DataQuality.recordFlag exps method t e) ∧
    List.Perm ((DataQuality.detectOutliers exps method t).1 ++
      (DataQuality.detectOutliers exps method t).2) exps ∧
    (∀ e, e ∈ (DataQuality.detectOutliers exps method t).1 →
      e ∉ (DataQuality.detectOutliers exps method t).2) ∧
    (∀ e, e ∈ (DataQuality.detectOutliers exps method t).2 →
      e.processes.getD [] ≠ []) := by
  have hkey : (DataQuality.detectOutliers exps method t).1 =
      exps.filter (fun e => !(DataQuality.recordFlag exps method t e)) ∧
      (DataQuality.detectOutliers exps method t).2 =
      exps.filter (fun e => DataQuality.recordFlag exps method t e) := by
    simp only [DataQuality.detectOutliers]
    by_cases he : exps.isEmpty
    · rw [if_pos he]
      obtain rfl : exps = [] := List.isEmpty_iff.mp he
      simp
    · rw [if_neg he]
      by_cases hr : (DataQuality.buildRows exps).isEmpty
      · rw [if_pos hr]
        have hrows : exps.flatMap DataQuality.rowsOfRec = [] := List.isEmpty_iff.mp hr
        have hflag : ∀ e ∈ exps, (DataQuality.recordFlag exps method t e) = false := by
          intro e he2
          have hnil : DataQuality.rowsOfRec e = [] :=
            List.flatMap_eq_nil_iff.mp hrows e he2
          simp [DataQuality.recordFlag, hnil]
        constructor
        · symm
          apply List.filter_eq_self.mpr
          intro e he2
          simp [hflag e he2]
        · symm
          apply List.filter_eq_nil_iff.mpr
          intro e he2
          simp [hflag e he2]
      · rw [if_neg hr]
        have hmask : DataQuality.maskOf (DataQuality.buildRows exps) method t =
            (exps.flatMap DataQuality.rowsOfRec).map
              (DataQuality.rowFlagOf (DataQuality.buildRows exps) method t) := rfl
        rw [hmask, DataQuality.flagsAux_flatMap]
        exact ⟨DataQuality.zipfilter_fst exps _ (fun b => !b),
          DataQuality.zipfilter_fst exps _ (fun b => b)⟩
  obtain ⟨hc, ho⟩ := hkey
  refine ⟨hc, ho, ?_, ?_, ?_⟩
  · rw [hc, ho]
    have hperm := List.filter_append_perm
      (fun e => DataQuality.recordFlag exps method t e) exps
    exact List.perm_append_comm.trans hperm
  · intro e h1 h2
    rw [hc] at h1
    rw [ho] at h2
    have b1 := (List.mem_filter.mp h1).2
    have b2 := (List.mem_filter.mp h2).2
    simp [b2] at b1
  · intro e h2 hnil
    rw [ho] at h2
    have b2 := (List.mem_filter.mp h2).2
    have hrows : DataQuality.rowsOfRec e = [] := by simp [DataQuality.rowsOfRec, hnil]
    simp [DataQuality.recordFlag, hrows] at b2

/-- C5 witness: the partition properties instantiated on a concrete
two-record pool with the IQR method. -/
theorem detect_outliers_partition_witness :
    (DataQuality.detectOutliers [DataQuality.zRecThk0, DataQuality.zRecThk1] "iqr" (3/2)).1 =
      [DataQuality.zRecThk0, DataQuality.zRecThk1].filter
        (fun e => !(DataQuality.recordFlag [DataQuality.zRecThk0, DataQuality.zRecThk1]
          "iqr" (3/2) e)) ∧
    (DataQuality.detectOutliers [DataQuality.zRecThk0, DataQuality.zRecThk1] "iqr" (3/2)).2 =
      [DataQuality.zRecThk0, DataQuality.zRecThk1].filter
        (fun e => DataQuality.recordFlag [DataQuality.zRecThk0, DataQuality.zRecThk1]
          "iqr" (3/2) e) ∧
    List.Perm
      ((DataQuality.detectOutliers [DataQuality.zRecThk0, DataQuality.zRecThk1]
          "iqr" (3/2)).1 ++
        (DataQuality.detectOutliers [DataQuality.zRecThk0, DataQuality.zRecThk1]
          "iqr" (3/2)).2)
      [DataQuality.zRecThk0, DataQuality.zRecThk1] ∧
    (∀ e, e ∈ (DataQuality.detectOutliers [DataQuality.zRecThk0, DataQuality.zRecThk1]
        "iqr" (3/2)).1 →
      e ∉ (DataQuality.detectOutliers [DataQuality.zRecThk0, DataQuality.zRecThk1]
        "iqr" (3/2)).2) ∧
    (∀ e, e ∈ (DataQuality.detectOutliers [DataQuality.zRecThk0, DataQuality.zRecThk1]
        "iqr" (3/2)).2 →
      e.processes.getD [] ≠ []) :=
  detect_outliers_partition [DataQuality.zRecThk0, DataQuality.zRecThk1] "iqr" (3/2)

/-- C8 counterexample: the claim reads the standard deviation as floored at
1.0 (`max std 1`). On the matrix whose first column is {0, 1} the column
standard deviation is 0.5: with threshold 0.8 the source flags every row
(z = 0.5/0.5 = 1 > 0.8), while under the claimed flooring no row would be
flagged (0.5/1 = 0.5 ≤ 0.8). The source replaces the standard deviation by
1.0 only where it is exactly zero. -/
theorem zscore_flooring_ce :
    DataQuality.zscoreMask [[0,0,0,0,0],[1,0,0,0,0]] (4/5) = [true, true] ∧
    ¬ DataQuality.specFlooredZFlag [[0,0,0,0,0],[1,0,0,0,0]] (4/5) [0,0,0,0,0] := by
  constructor
  · have hr0 : DataQuality.rowFlagZscore [[0,0,0,0,0],[1,0,0,0,0]] (4/5) [0,0,0,0,0] =
        true := by
      unfold DataQuality.rowFlagZscore
      rw [List.any_eq_true]
      refine ⟨0, by decide, ?_⟩
      norm_num [DataQuality.colAt, DataQuality.zFlagQ, DataQuality.colVar, qmean]
    have hr1 : DataQuality.rowFlagZscore [[0,0,0,0,0],[1,0,0,0,0]] (4/5) [1,0,0,0,0] =
        true := by
      unfold DataQuality.rowFlagZscore
      rw [List.any_eq_true]
      refine ⟨0, by decide, ?_⟩
      norm_num [DataQuality.colAt, DataQuality.zFlagQ, DataQuality.colVar, qmean]
    simp only [DataQuality.zscoreMask, List.map_cons, List.map_nil, hr0, hr1]
  · rintro ⟨j, hj, habs⟩
    simp only [List.mem_range] at hj
    have h5 : (([[ (0:ℚ),0,0,0,0],[1,0,0,0,0]] : List (List ℚ)).headD []).length = 5 := rfl
    rw [h5] at hj
    have hs2 : Real.sqrt 4 = 2 := by
      rw [show (4 : ℝ) = 2 ^ 2 by norm_num, Real.sqrt_sq (by norm_num)]
    have habs2 : |(1 : ℝ)/2| = 1/2 := abs_of_nonneg (by norm_num)
    interval_cases j <;>
      revert habs <;>
      norm_num [DataQuality.colAt, DataQuality.colVar, qmean, hs2, Real.sqrt_zero, habs2]

/-- C8 (amended): in Z-score outlier detection the per-dimension standard
deviation is replaced by 1.0 exactly where it is zero (not floored at 1.0);
the divisor is therefore never zero, and a row of the feature matrix is
flagged exactly when some per-dimension `|value − mean| / adjusted-std`
exceeds the threshold. -/
theorem zscore_adjusted_std (rows : List (List ℚ)) (t : ℚ) (i : ℕ)
    (hi : i < rows.length) :
    (∀ j, DataQuality.adjStd (DataQuality.colVar (DataQuality.colAt rows j)) ≠ 0) ∧
    ((DataQuality.zscoreMask rows t).getD i false = true ↔
      DataQuality.specAdjZFlag rows t (rows.getD i [])) := by
  refine ⟨fun j => DataQuality.adjStd_ne_zero _, ?_⟩
  have hmap : (DataQuality.zscoreMask rows t).getD i false =
      DataQuality.rowFlagZscore rows t (rows.getD i []) := by
    unfold DataQuality.zscoreMask
    simp [List.getD_eq_getElem?_getD, List.getElem?_eq_getElem hi]
  rw [hmap]
  unfold DataQuality.rowFlagZscore DataQuality.specAdjZFlag
  rw [List.any_eq_true]
  constructor
  · rintro ⟨j, hj, hf⟩
    exact ⟨j, hj,
      (DataQuality.zFlagQ_iff_real _ _ _ _ (DataQuality.colVar_nonneg _)).mp hf⟩
  · rintro ⟨j, hj, hf⟩
    exact ⟨j, hj,
      (DataQuality.zFlagQ_iff_real _ _ _ _ (DataQuality.colVar_nonneg _)).mpr hf⟩

/-- C8 witness: the adjusted-standard-deviation characterization applied to
the first row of the concrete {0,1}-thickness matrix. -/
theorem zscore_adjusted_std_witness :
    (0 : ℕ) < ([[(0:ℚ),0,0,0,0],[1,0,0,0,0]] : List (List ℚ)).length ∧
    ((∀ j, DataQuality.adjStd (DataQuality.colVar
        (DataQuality.colAt [[(0:ℚ),0,0,0,0],[1,0,0,0,0]] j)) ≠ 0) ∧
      ((DataQuality.zscoreMask [[(0:ℚ),0,0,0,0],[1,0,0,0,0]] (4/5)).getD 0 false = true ↔
        DataQuality.specAdjZFlag [[(0:ℚ),0,0,0,0],[1,0,0,0,0]] (4/5)
          (([[(0:ℚ),0,0,0,0],[1,0,0,0,0]] : List (List ℚ)).getD 0 []))) :=
  ⟨by decide, zscore_adjusted_std [[(0:ℚ),0,0,0,0],[1,0,0,0,0]] (4/5) 0 (by decide)⟩
